import Mathlib

/-!
Verification of the Flower task-dispatch protocol slice.

The repository ships the driver test suite (`grpc_driver_test.py`), the
background ClientApp process (`process.py`) and a small executor test.
The `GrpcDriver` implementation itself is not part of the slice, so the
Driver-side operations below are modelled from the specification
(sections 3, 4.1-4.4, 7 of spec.md); `process.py` is embedded directly.
-/

namespace Flower

/-! ## Data model (spec section 3, wire shapes from section 6) -/

/-- Run metadata: immutable tuple cached by the Driver.
Field names follow the wire shape used by the tests (`fab_id`, `fab_version`). -/
structure RunRec where
  run_id : Nat
  fab_id : String
  fab_version : String
deriving Repr, DecidableEq

/-- Error payload of a reply: carries at minimum a numeric code. -/
structure ErrorRec where
  code : Nat
deriving Repr, DecidableEq

/-- Message metadata: run binding, routing and correlation fields.
`reply_to_message` is empty for a fresh outgoing message. -/
structure Metadata where
  run_id : Nat
  src_node_id : Nat
  dst_node_id : Nat
  group_id : String
  ttl : Nat
  reply_to_message : String
deriving Repr, DecidableEq

/-- A Message: receiver-assigned id (empty until pushed), metadata, and a
payload that is either opaque content or an error. Content is opaque to the
dispatch layer and modelled as a `Nat` token. -/
structure Message where
  message_id : String
  metadata : Metadata
  content : Option Nat
  error : Option ErrorRec
deriving Repr, DecidableEq

/-- Wire task envelope for a push: each envelope carries the run id and the
routing fields stamped by `create_message`. -/
structure TaskIns where
  run_id : Nat
  dst_node_id : Nat
  group_id : String
  ttl : Nat
deriving Repr, DecidableEq

/-- Wire task result for a pull: ancestry is the correlation id of the
originating pushed message; `oneof content error` (neither = protocol fault). -/
structure TaskRes where
  run_id : Nat
  ancestry : String
  content : Option Nat
  error : Option ErrorRec
deriving Repr, DecidableEq

/-- Errors surfaced by Driver operations (spec section 7 taxonomy). -/
inductive DriverError where
  | validation
  | protocolError
  | runNotFound
deriving Repr, DecidableEq

/-- Remote calls issued by the Driver, for counting fetches per operation. -/
inductive RemoteCall where
  | getRun
  | getNodes
  | pushTaskIns
  | pullTaskRes
deriving Repr, DecidableEq

/-! ## RetryInvoker (spec section 4.1)

Modelled from the spec: `RetryInvoker` wraps a zero-argument remote
operation; a transient transport failure is retried up to a configured
maximum attempt count, a success returns the result, exhaustion re-raises
the last transient failure, and a non-transient failure propagates
immediately.  The k-th invocation of the underlying call is modelled by
`call k`; backoff sleeps are real-time and not modelled. -/

/-- Outcome of one invocation of the wrapped remote operation. -/
inductive CallOutcome (α : Type) where
  | success (a : α)
  | transient (e : Nat)
  | fatal (e : Nat)
deriving Repr, DecidableEq

/-- Failure surfaced by the retry wrapper. -/
inductive RetryError where
  | transient (e : Nat)
  | fatal (e : Nat)
deriving Repr, DecidableEq

/-- Modelled from the spec: the retry loop with `remaining` attempts left,
about to perform invocation number `k`.  Returns the wrapper's result
together with the number of invocations of the underlying call performed. -/
def retryAux (call : Nat → CallOutcome α) : Nat → Nat → Except RetryError α × Nat
  | 0, _ => (Except.error (RetryError.transient 0), 0)
  | remaining + 1, k =>
    match call k with
    | CallOutcome.success a => (Except.ok a, 1)
    | CallOutcome.fatal e => (Except.error (RetryError.fatal e), 1)
    | CallOutcome.transient e =>
      if remaining = 0 then
        (Except.error (RetryError.transient e), 1)
      else
        let r := retryAux call remaining (k + 1)
        (r.1, r.2 + 1)

/-- Modelled from the spec: invoke `call` with up to `maxTries` attempts. -/
def retryInvoker (maxTries : Nat) (call : Nat → CallOutcome α) :
    Except RetryError α × Nat :=
  retryAux call maxTries 0

/-! ## The remote side seen by a Driver

Modelled from the spec: the remote procedure surface of section 6 as pure
response functions.  `store now i` is the reply (if any) available at time
`now` for correlation id `i`; `pull_messages` "returns only those replies
that exist" for the requested ids, so a pull is the keyed lookup over the
requested set.  Time is discrete (milliseconds of wall clock). -/
structure Stub where
  getRunResp : Nat → Option RunRec
  getNodesResp : Nat → List Nat
  pushTaskInsResp : List TaskIns → List String
  store : Nat → String → Option TaskRes

/-- Modelled from the spec: a Driver handle bound to one run, holding the
run metadata cached at construction and the lazily-established channel flag. -/
structure Driver where
  run : RunRec
  stub : Stub
  channelConnected : Bool

/-! ## Driver operations (spec sections 4.2-4.4)

Each operation returns its result together with the list of remote calls it
issued, so that fetch-once and zero-remote-call properties are statements
about the trace. -/

/-- Modelled from the spec: Driver construction fetches the Run for
`run_id` exactly once and caches it; an unknown run is `RunNotFoundError`. -/
def initDriver (stub : Stub) (run_id : Nat) :
    Except DriverError Driver × List RemoteCall :=
  match stub.getRunResp run_id with
  | some r => (Except.ok { run := r, stub := stub, channelConnected := false },
               [RemoteCall.getRun])
  | none => (Except.error DriverError.runNotFound, [RemoteCall.getRun])

/-- Modelled from the spec: `create_message` stamps metadata with the bound
run_id; the message id stays empty (assigned by the receiver). -/
def create_message (d : Driver) (content : Nat) (dst_node_id : Nat)
    (group_id : String) (ttl : Nat) : Message :=
  { message_id := ""
    metadata :=
      { run_id := d.run.run_id, src_node_id := 0, dst_node_id := dst_node_id,
        group_id := group_id, ttl := ttl, reply_to_message := "" }
    content := some content
    error := none }

/-- Modelled from the spec: `get_node_ids` is one retried remote call
listing the nodes registered for the bound run. -/
def get_node_ids (d : Driver) : List Nat × List RemoteCall :=
  (d.stub.getNodesResp d.run.run_id, [RemoteCall.getNodes])

/-- Wire envelope for one outgoing message. -/
def messageToTaskIns (m : Message) : TaskIns :=
  { run_id := m.metadata.run_id, dst_node_id := m.metadata.dst_node_id,
    group_id := m.metadata.group_id, ttl := m.metadata.ttl }

/-- Modelled from the spec: `push_messages` validates every message's
`metadata.run_id` against the bound run; any mismatch fails fast with a
ValidationError and no remote call; otherwise one remote call carries the
whole batch and the receiver-assigned ids come back in input order. -/
def push_messages (d : Driver) (msgs : List Message) :
    Except DriverError (List String) × List RemoteCall :=
  if msgs.all (fun m => m.metadata.run_id == d.run.run_id) then
    (Except.ok (d.stub.pushTaskInsResp (msgs.map messageToTaskIns)),
     [RemoteCall.pushTaskIns])
  else
    (Except.error DriverError.validation, [])

/-- Decode one wire reply: a reply with neither content nor error is a
protocol violation; otherwise the reply's correlation id becomes
`reply_to_message`. -/
def taskResToMessage (t : TaskRes) : Except DriverError Message :=
  if t.content.isNone && t.error.isNone then
    Except.error DriverError.protocolError
  else
    Except.ok
      { message_id := ""
        metadata :=
          { run_id := t.run_id, src_node_id := 0, dst_node_id := 0,
            group_id := "", ttl := 0, reply_to_message := t.ancestry }
        content := t.content
        error := t.error }

/-- Decode a batch of wire replies, failing on the first protocol fault. -/
def decodeTaskRes : List TaskRes → Except DriverError (List Message)
  | [] => Except.ok []
  | t :: ts =>
    match taskResToMessage t with
    | Except.error e => Except.error e
    | Except.ok m =>
      match decodeTaskRes ts with
      | Except.error e => Except.error e
      | Except.ok ms => Except.ok (m :: ms)

/-- Modelled from the spec: `pull_messages` issues one retried remote call
for the given ids and returns only the replies that exist at time `now`;
it never waits. -/
def pull_messages (d : Driver) (now : Nat) (ids : List String) :
    Except DriverError (List Message) × List RemoteCall :=
  (decodeTaskRes (ids.filterMap (d.stub.store now)), [RemoteCall.pullTaskRes])

/-! ## SendReceiveLoop (spec section 4.4) -/

/-- Correlation ids still outstanding after receiving `replies`. -/
def removeReceived (outstanding : List String) (replies : List Message) :
    List String :=
  outstanding.filter
    (fun i => !(replies.any (fun m => m.metadata.reply_to_message == i)))

/-- Modelled from the spec: the poll loop of `send_and_receive`.  Each
iteration pulls the outstanding ids, accumulates new replies, returns when
the outstanding set is empty or the elapsed time exceeds `timeout`, and
otherwise sleeps `interval` before the next poll.  `fuel` bounds the
recursion; `sendAndReceive` supplies enough fuel for the timeout check to
fire first.  Returns the collected replies, the elapsed time at return,
and the remote-call trace. -/
def pollLoop (d : Driver) (interval timeout : Nat) :
    Nat → Nat → List String → List Message →
      Except DriverError (List Message × Nat) × List RemoteCall
  | 0, now, _, acc => (Except.ok (acc, now), [])
  | fuel + 1, now, outstanding, acc =>
    match (pull_messages d now outstanding).1 with
    | Except.error e => (Except.error e, [RemoteCall.pullTaskRes])
    | Except.ok replies =>
      let acc2 := acc ++ replies
      let out2 := removeReceived outstanding replies
      if out2.isEmpty then
        (Except.ok (acc2, now), [RemoteCall.pullTaskRes])
      else if timeout < now then
        (Except.ok (acc2, now), [RemoteCall.pullTaskRes])
      else
        let r := pollLoop d interval timeout fuel (now + interval) out2 acc2
        (r.1, RemoteCall.pullTaskRes :: r.2)

/-- Sleep interval between polls, on the order of 100ms (spec section 4.4). -/
def pollInterval : Nat := 100

/-- Modelled from the spec: `send_and_receive` pushes the batch, records
the expected correlation ids, then polls until complete or `timeout`
elapses, returning whatever replies were collected together with the
elapsed time. -/
def sendAndReceive (d : Driver) (msgs : List Message) (timeout : Nat) :
    Except DriverError (List Message × Nat) × List RemoteCall :=
  let p := push_messages d msgs
  match p.1 with
  | Except.error e => (Except.error e, p.2)
  | Except.ok ids =>
    let r := pollLoop d pollInterval timeout (timeout / pollInterval + 2) 0 ids []
    (r.1, p.2 ++ r.2)

/-! ## Channel lifecycle (spec section 8, last property) -/

/-- Modelled from the spec: `_connect` lazily establishes the transport
channel. -/
def connectDriver (d : Driver) : Driver :=
  { d with channelConnected := true }

/-- Modelled from the spec: `close` tears the channel down only when one
was established; returns the number of `channel.close` teardown calls. -/
def closeDriver (d : Driver) : Driver × Nat :=
  if d.channelConnected then
    ({ d with channelConnected := false }, 1)
  else
    (d, 0)

/-! ## Background ClientApp process

Embedding of `_run_background_client` in
`src/py/flwr/client/process/process.py`.  The external collaborators
(`pull_message`, `_get_load_client_app_fn`, the ClientApp call,
`push_message`) are opaque steps that either return normally or raise; an
environment fixes the outcome of each step.  The `try/except/except/
finally` structure of the source is embedded directly. -/

/-- Kind of exception a step of the worker body may raise:
`KeyboardInterrupt`, `grpc.RpcError`, or any other exception. -/
inductive ExcKind where
  | keyboardInterrupt
  | rpcError
  | other
deriving Repr, DecidableEq

/-- Outcome of one opaque step of the worker body. -/
inductive StepOutcome where
  | ok
  | raises (e : ExcKind)
deriving Repr, DecidableEq

/-- Environment of one background invocation: what each step of the body
does when reached. -/
structure WorkerEnv where
  pullStep : StepOutcome
  loadStep : StepOutcome
  execStep : StepOutcome
  pushStep : StepOutcome
deriving Repr, DecidableEq

/-- Observable effects of one `_run_background_client` invocation. -/
structure WorkerEffects where
  pullTokens : List Nat
  loadCalls : Nat
  execCalls : Nat
  pushTokens : List Nat
  channelCloses : Nat
  raised : Option ExcKind
  loggedInterrupt : Bool
  loggedRpcError : Bool
deriving Repr, DecidableEq

/-- Effects of the `try` body alone (before the except/finally clauses):
`pull_message(stub, token)` → load ClientApp → execute → `push_message`
with the same token, stopping at the first step that raises. -/
def workerBody (env : WorkerEnv) (token : Nat) :
    List Nat × Nat × Nat × List Nat × Option ExcKind :=
  match env.pullStep with
  | StepOutcome.raises e => ([token], 0, 0, [], some e)
  | StepOutcome.ok =>
    match env.loadStep with
    | StepOutcome.raises e => ([token], 1, 0, [], some e)
    | StepOutcome.ok =>
      match env.execStep with
      | StepOutcome.raises e => ([token], 1, 1, [], some e)
      | StepOutcome.ok =>
        match env.pushStep with
        | StepOutcome.raises e => ([token], 1, 1, [token], some e)
        | StepOutcome.ok => ([token], 1, 1, [token], none)

/-- Embedding of `_run_background_client`: run the body, catch
`KeyboardInterrupt` (log INFO) and `grpc.RpcError` (log ERROR), let any
other exception propagate, and close the channel in the `finally` clause
on every path. -/
def runBackgroundClient (env : WorkerEnv) (token : Nat) : WorkerEffects :=
  let b := workerBody env token
  let handled : Option ExcKind × Bool × Bool :=
    match b.2.2.2.2 with
    | some ExcKind.keyboardInterrupt => (none, true, false)
    | some ExcKind.rpcError => (none, false, true)
    | some ExcKind.other => (some ExcKind.other, false, false)
    | none => (none, false, false)
  { pullTokens := b.1
    loadCalls := b.2.1
    execCalls := b.2.2.1
    pushTokens := b.2.2.2.1
    channelCloses := 1
    raised := handled.1
    loggedInterrupt := handled.2.1
    loggedRpcError := handled.2.2 }

/-- The exception (if any) escaping the `try` body of one invocation. -/
def bodyExc (env : WorkerEnv) : Option ExcKind :=
  (workerBody env 0).2.2.2.2

/-! ## Concrete fixtures (mirroring the scenarios of the driver test suite) -/

/-- The run used throughout the driver tests. -/
def testRun : RunRec :=
  { run_id := 61016, fab_id := "mock/mock", fab_version := "v1.0.0" }

/-- Receiver-assigned id for the i-th task of a batch. -/
def idFor (i : Nat) : String := "id" ++ toString (i + 1)

/-- A stub remote: knows run 61016, two nodes, assigns ids positionally,
and stores a content reply under "id2" and an error reply under "id3". -/
def testStub : Stub where
  getRunResp := fun rid => if rid = 61016 then some testRun else none
  getNodesResp := fun _ => [404, 200]
  pushTaskInsResp := fun req => (List.range req.length).map idFor
  store := fun _ i =>
    if i = "id2" then
      some { run_id := 61016, ancestry := "id2", content := some 0, error := none }
    else if i = "id3" then
      some { run_id := 61016, ancestry := "id3", content := none,
             error := some { code := 0 } }
    else none

/-- Driver bound to run 61016 over the stub remote. -/
def testDriver : Driver :=
  { run := testRun, stub := testStub, channelConnected := false }

/-- A stub remote that never has any reply available. -/
def emptyStub : Stub where
  getRunResp := fun _ => some testRun
  getNodesResp := fun _ => []
  pushTaskInsResp := fun req => (List.range req.length).map idFor
  store := fun _ _ => none

/-- Driver over the reply-less stub. -/
def emptyDriver : Driver :=
  { run := testRun, stub := emptyStub, channelConnected := false }

/-- A fresh valid outgoing message for the bound run. -/
def testMsg : Message := create_message testDriver 0 7 "" 3600

/-- The same message with its run binding corrupted (the invalid-push test). -/
def badMsg : Message :=
  { testMsg with metadata := { testMsg.metadata with run_id := 61017 } }

/-! ## C1: invalid run_id on push -/

/-- C1: pushing any batch containing a message whose `metadata.run_id`
differs from the bound run's id raises a ValidationError and performs zero
remote calls: no partial push, no retry. -/
theorem push_messages_invalid_run_id (d : Driver) (msgs : List Message)
    (h : ∃ m ∈ msgs, m.metadata.run_id ≠ d.run.run_id) :
    push_messages d msgs = (Except.error DriverError.validation, []) := by
  obtain ⟨m, hm, hne⟩ := h
  have hall : ¬ msgs.all (fun m => m.metadata.run_id == d.run.run_id) = true := by
    simp only [List.all_eq_true, beq_iff_eq]
    intro hforall
    exact hne (hforall m hm)
  simp [push_messages, hall]

/-- C1 witness: pushing the two-message batch with one corrupted run id
through the concrete driver fails with ValidationError and an empty trace. -/
theorem push_messages_invalid_run_id_witness :
    push_messages testDriver [testMsg, badMsg] =
      (Except.error DriverError.validation, []) :=
  push_messages_invalid_run_id testDriver [testMsg, badMsg]
    ⟨badMsg, by simp, by decide⟩

/-! ## C5: valid push -/

/-- C5: pushing N valid messages issues one remote call carrying the whole
batch in input order, every envelope carries the bound run id, and the
receiver-assigned ids are returned positionally (N of them whenever the
receiver assigns one id per envelope). -/
theorem push_messages_valid_spec (d : Driver) (msgs : List Message)
    (hvalid : ∀ m ∈ msgs, m.metadata.run_id = d.run.run_id) :
    push_messages d msgs =
      (Except.ok (d.stub.pushTaskInsResp (msgs.map messageToTaskIns)),
        [RemoteCall.pushTaskIns]) ∧
    (∀ t ∈ msgs.map messageToTaskIns, t.run_id = d.run.run_id) ∧
    ((∀ req, (d.stub.pushTaskInsResp req).length = req.length) →
      ∃ ids, (push_messages d msgs).1 = Except.ok ids ∧
        ids.length = msgs.length) := by
  have hall : msgs.all (fun m => m.metadata.run_id == d.run.run_id) = true := by
    simp only [List.all_eq_true, beq_iff_eq]
    exact hvalid
  refine ⟨by simp [push_messages, hall], ?_, ?_⟩
  · intro t ht
    simp only [List.mem_map] at ht
    obtain ⟨m, hm, rfl⟩ := ht
    simpa [messageToTaskIns] using hvalid m hm
  · intro hlen
    refine ⟨d.stub.pushTaskInsResp (msgs.map messageToTaskIns), ?_, ?_⟩
    · simp [push_messages, hall]
    · simpa using hlen (msgs.map messageToTaskIns)

/-- C5 witness: pushing two valid messages returns the two positional ids
"id1", "id2" in one remote call. -/
theorem push_messages_valid_spec_witness :
    push_messages testDriver [testMsg, testMsg] =
      (Except.ok
        (testDriver.stub.pushTaskInsResp ([testMsg, testMsg].map messageToTaskIns)),
        [RemoteCall.pushTaskIns]) ∧
    (push_messages testDriver [testMsg, testMsg]).1 =
      Except.ok ["id1", "id2"] := by
  have h := push_messages_valid_spec testDriver [testMsg, testMsg] (by decide)
  exact ⟨h.1, by rw [h.1]; rfl⟩

/-! ## C9: channel teardown -/

/-- C9: closing a Driver that never established the transport performs no
teardown call; closing one that connected tears the channel down exactly
once. -/
theorem close_teardown_spec (d : Driver) :
    (d.channelConnected = false → (closeDriver d).2 = 0) ∧
    (closeDriver (connectDriver d)).2 = 1 := by
  constructor
  · intro h
    simp [closeDriver, h]
  · simp [closeDriver, connectDriver]

/-- C9 witness: the fresh concrete driver closes with zero teardown calls;
after connecting it closes with exactly one. -/
theorem close_teardown_spec_witness :
    (closeDriver testDriver).2 = 0 ∧
    (closeDriver (connectDriver testDriver)).2 = 1 :=
  ⟨(close_teardown_spec testDriver).1 rfl, (close_teardown_spec testDriver).2⟩

/-! ## C10: channel closed exactly once on every worker path -/

/-- C10: on every execution path of `_run_background_client` — success,
interrupt, transport error, or any other exception in pull, load, execute
or push — the channel is closed exactly once by the `finally` clause. -/
theorem worker_channel_closed_once (env : WorkerEnv) (token : Nat) :
    (runBackgroundClient env token).channelCloses = 1 := rfl

/-! ## C7: run fetched once, then cached -/

/-- The poll loop of `send_and_receive` only ever issues pull calls. -/
theorem pollLoop_no_getRun (d : Driver) (interval timeout : Nat) :
    ∀ fuel now outstanding acc,
      RemoteCall.getRun ∉ (pollLoop d interval timeout fuel now outstanding acc).2 := by
  intro fuel
  induction fuel with
  | zero =>
    intro now outstanding acc
    simp [pollLoop]
  | succ n ih =>
    intro now outstanding acc
    simp only [pollLoop]
    cases hp : (pull_messages d now outstanding).1 with
    | error e => simp
    | ok replies =>
      simp only
      split
      · simp
      · split
        · simp
        · simp only [List.mem_cons]
          rintro (h | h)
          · exact RemoteCall.noConfusion h
          · exact ih _ _ _ h

/-- `push_messages` never issues a run fetch. -/
theorem push_messages_no_getRun (d : Driver) (msgs : List Message) :
    RemoteCall.getRun ∉ (push_messages d msgs).2 := by
  unfold push_messages
  split <;> simp

/-- C7: Driver construction fetches the Run exactly once (and caches
exactly the fetched value); `get_node_ids`, `push_messages`,
`pull_messages` and `send_and_receive` issue no further run fetch, and
none of them mutates the Driver, so the cached Run is immutable. -/
theorem run_fetched_once_then_cached (stub : Stub) (rid now timeout : Nat)
    (r : RunRec) (d : Driver) (msgs : List Message) (ids : List String)
    (hr : stub.getRunResp rid = some r) :
    initDriver stub rid =
      (Except.ok { run := r, stub := stub, channelConnected := false },
        [RemoteCall.getRun]) ∧
    RemoteCall.getRun ∉ (get_node_ids d).2 ∧
    RemoteCall.getRun ∉ (push_messages d msgs).2 ∧
    RemoteCall.getRun ∉ (pull_messages d now ids).2 ∧
    RemoteCall.getRun ∉ (sendAndReceive d msgs timeout).2 := by
  refine ⟨by simp [initDriver, hr], by simp [get_node_ids],
    push_messages_no_getRun d msgs, by simp [pull_messages], ?_⟩
  unfold sendAndReceive
  cases hres : (push_messages d msgs).1 with
  | error e =>
    simp only [hres]
    exact push_messages_no_getRun d msgs
  | ok pushedIds =>
    simp only [hres, List.mem_append]
    rintro (h | h)
    · exact push_messages_no_getRun d msgs h
    · exact pollLoop_no_getRun d pollInterval timeout _ _ _ _ h

/-- C7 witness: constructing the concrete driver fetches run 61016 once and
caches it; the concrete operations issue no run fetch. -/
theorem run_fetched_once_then_cached_witness :
    initDriver testStub 61016 =
      (Except.ok { run := testRun, stub := testStub, channelConnected := false },
        [RemoteCall.getRun]) ∧
    RemoteCall.getRun ∉ (get_node_ids testDriver).2 ∧
    RemoteCall.getRun ∉ (push_messages testDriver [testMsg]).2 ∧
    RemoteCall.getRun ∉ (pull_messages testDriver 0 ["id1", "id2", "id3"]).2 ∧
    RemoteCall.getRun ∉ (sendAndReceive testDriver [testMsg] 150).2 :=
  run_fetched_once_then_cached testStub 61016 0 150 testRun testDriver
    [testMsg] ["id1", "id2", "id3"] rfl

/-! ## C8: single-shot worker exchange -/

/-- C8: one background invocation pulls exactly one task with the caller's
token and attempts each remote call at most once (no retry); when every
step succeeds it executes the app exactly once and pushes exactly one
reply with the same token; an interrupt before the push terminates
gracefully with no reply sent and an interrupt log; a transport error at
any point is logged and does not crash the process (no exception escapes). -/
theorem worker_single_shot (env : WorkerEnv) (token : Nat) :
    (runBackgroundClient env token).pullTokens = [token] ∧
    (runBackgroundClient env token).execCalls ≤ 1 ∧
    (runBackgroundClient env token).pushTokens.length ≤ 1 ∧
    (env.pullStep = StepOutcome.ok → env.loadStep = StepOutcome.ok →
      env.execStep = StepOutcome.ok → env.pushStep = StepOutcome.ok →
      (runBackgroundClient env token).execCalls = 1 ∧
      (runBackgroundClient env token).pushTokens = [token] ∧
      (runBackgroundClient env token).raised = none) ∧
    ((env.pullStep = StepOutcome.raises ExcKind.keyboardInterrupt ∨
        (env.pullStep = StepOutcome.ok ∧
          env.loadStep = StepOutcome.raises ExcKind.keyboardInterrupt) ∨
        (env.pullStep = StepOutcome.ok ∧ env.loadStep = StepOutcome.ok ∧
          env.execStep = StepOutcome.raises ExcKind.keyboardInterrupt)) →
      (runBackgroundClient env token).raised = none ∧
      (runBackgroundClient env token).pushTokens = [] ∧
      (runBackgroundClient env token).loggedInterrupt = true) ∧
    (bodyExc env = some ExcKind.rpcError →
      (runBackgroundClient env token).raised = none ∧
      (runBackgroundClient env token).loggedRpcError = true) := by
  rcases env with ⟨p, l, e, u⟩
  refine ⟨?_, ?_, ?_, ?_, ?_, ?_⟩
  · cases p <;> cases l <;> cases e <;> cases u <;> rfl
  · cases p <;> cases l <;> cases e <;> cases u <;>
      simp [runBackgroundClient, workerBody]
  · cases p <;> cases l <;> cases e <;> cases u <;>
      simp [runBackgroundClient, workerBody]
  · intro hp hl he hu
    subst hp; subst hl; subst he; subst hu
    exact ⟨rfl, rfl, rfl⟩
  · rintro (hp | ⟨hp, hl⟩ | ⟨hp, hl, he⟩)
    · subst hp
      exact ⟨rfl, rfl, rfl⟩
    · subst hp; subst hl
      exact ⟨rfl, rfl, rfl⟩
    · subst hp; subst hl; subst he
      exact ⟨rfl, rfl, rfl⟩
  · intro h
    cases p <;> cases l <;> cases e <;> cases u <;>
      simp_all [bodyExc, workerBody, runBackgroundClient]

/-- C8 witness: the all-success invocation with token 7 pulls once,
executes once and pushes once with token 7; the interrupt-on-pull
invocation terminates gracefully with no reply. -/
theorem worker_single_shot_witness :
    ((runBackgroundClient ⟨StepOutcome.ok, StepOutcome.ok, StepOutcome.ok,
        StepOutcome.ok⟩ 7).pullTokens = [7] ∧
      (runBackgroundClient ⟨StepOutcome.ok, StepOutcome.ok, StepOutcome.ok,
        StepOutcome.ok⟩ 7).execCalls = 1 ∧
      (runBackgroundClient ⟨StepOutcome.ok, StepOutcome.ok, StepOutcome.ok,
        StepOutcome.ok⟩ 7).pushTokens = [7]) ∧
    ((runBackgroundClient ⟨StepOutcome.raises ExcKind.keyboardInterrupt,
        StepOutcome.ok, StepOutcome.ok, StepOutcome.ok⟩ 7).raised = none ∧
      (runBackgroundClient ⟨StepOutcome.raises ExcKind.keyboardInterrupt,
        StepOutcome.ok, StepOutcome.ok, StepOutcome.ok⟩ 7).pushTokens = []) := by
  have h1 := worker_single_shot
    ⟨StepOutcome.ok, StepOutcome.ok, StepOutcome.ok, StepOutcome.ok⟩ 7
  have h2 := worker_single_shot
    ⟨StepOutcome.raises ExcKind.keyboardInterrupt, StepOutcome.ok,
      StepOutcome.ok, StepOutcome.ok⟩ 7
  have hsucc := h1.2.2.2.1 rfl rfl rfl rfl
  have hint := h2.2.2.2.2.1 (Or.inl rfl)
  exact ⟨⟨h1.1, hsucc.1, hsucc.2.1⟩, hint.1, hint.2.1⟩

/-! ## C2: retry mechanism -/

/-- One-step unfolding of the retry loop. -/
theorem retryAux_step {α : Type} (call : Nat → CallOutcome α) (n k0 : Nat) :
    retryAux call (n + 1) k0 =
      match call k0 with
      | CallOutcome.success a => (Except.ok a, 1)
      | CallOutcome.fatal e => (Except.error (RetryError.fatal e), 1)
      | CallOutcome.transient e =>
        if n = 0 then (Except.error (RetryError.transient e), 1)
        else ((retryAux call n (k0 + 1)).1, (retryAux call n (k0 + 1)).2 + 1) :=
  rfl

/-- Retry loop, success case: with invocation numbering starting at `k0`,
if the next `k` invocations fail transiently and invocation `k0 + k`
succeeds within the remaining budget, the loop returns the success value
after exactly `k + 1` invocations. -/
theorem retryAux_success {α : Type} (call : Nat → CallOutcome α) (v : α) :
    ∀ remaining k0 k, k < remaining →
      (∀ j, j < k → ∃ e, call (k0 + j) = CallOutcome.transient e) →
      call (k0 + k) = CallOutcome.success v →
      retryAux call remaining k0 = (Except.ok v, k + 1) := by
  intro remaining
  induction remaining with
  | zero =>
    intro k0 k hk
    exact absurd hk (Nat.not_lt_zero k)
  | succ n ih =>
    intro k0 k hk hfail hsucc
    cases k with
    | zero =>
      simp only [Nat.add_zero] at hsucc
      rw [retryAux_step, hsucc]
    | succ m =>
      obtain ⟨e, he⟩ := hfail 0 (Nat.succ_pos m)
      simp only [Nat.add_zero] at he
      have hn : n ≠ 0 := by omega
      have hrec := ih (k0 + 1) m (by omega)
        (fun j hj => by
          have hx : k0 + 1 + j = k0 + (j + 1) := by omega
          rw [hx]
          exact hfail (j + 1) (by omega))
        (by
          have hx : k0 + 1 + m = k0 + (m + 1) := by omega
          rw [hx]
          exact hsucc)
      rw [retryAux_step, he]
      simp [hn, hrec]

/-- Retry loop, exhaustion case: if every invocation in the remaining
budget fails transiently, the loop re-raises the error of the last
attempt after exactly `remaining` invocations. -/
theorem retryAux_exhaust {α : Type} (call : Nat → CallOutcome α)
    (errs : Nat → Nat) :
    ∀ remaining k0, 0 < remaining →
      (∀ j, j < remaining → call (k0 + j) = CallOutcome.transient (errs (k0 + j))) →
      retryAux call remaining k0 =
        (Except.error (RetryError.transient (errs (k0 + remaining - 1))),
          remaining) := by
  intro remaining
  induction remaining with
  | zero =>
    intro k0 h
    exact absurd h (Nat.lt_irrefl 0)
  | succ n ih =>
    intro k0 _ hfail
    have he : call k0 = CallOutcome.transient (errs k0) := by
      have := hfail 0 (Nat.succ_pos n)
      simpa using this
    cases n with
    | zero =>
      rw [retryAux_step, he]
      simp
    | succ m =>
      have hrec := ih (k0 + 1) (Nat.succ_pos m)
        (fun j hj => by
          have hx : k0 + 1 + j = k0 + (j + 1) := by omega
          rw [hx]
          exact hfail (j + 1) (by omega))
      have hidx : k0 + 1 + (m + 1) - 1 = k0 + (m + 1 + 1) - 1 := by omega
      rw [hidx] at hrec
      rw [retryAux_step, he]
      simp [hrec]

/-- C2: the retry wrapper returns the success value after exactly `k + 1`
invocations when the call fails transiently exactly `k` times (`k` below
the attempt budget) and then succeeds; and it re-raises the last transient
error after failing on every one of the `maxTries` attempts. -/
theorem retry_invoker_spec {α : Type} (maxTries : Nat) (call : Nat → CallOutcome α) :
    (∀ k v, k < maxTries →
      (∀ j, j < k → ∃ e, call j = CallOutcome.transient e) →
      call k = CallOutcome.success v →
      retryInvoker maxTries call = (Except.ok v, k + 1)) ∧
    (∀ errs : Nat → Nat, 0 < maxTries →
      (∀ j, j < maxTries → call j = CallOutcome.transient (errs j)) →
      retryInvoker maxTries call =
        (Except.error (RetryError.transient (errs (maxTries - 1))), maxTries)) := by
  constructor
  · intro k v hk hfail hsucc
    exact retryAux_success call v maxTries 0 k hk
      (fun j hj => by simpa using hfail j hj)
      (by simpa using hsucc)
  · intro errs hpos hfail
    have := retryAux_exhaust call errs maxTries 0 hpos
      (fun j hj => by simpa using hfail j hj)
    simpa [retryInvoker] using this

/-- A remote call that fails transiently twice, then succeeds. -/
def flakyCall : Nat → CallOutcome Nat :=
  fun j => if j < 2 then CallOutcome.transient j else CallOutcome.success 42

/-- A remote call that always fails transiently. -/
def deadCall : Nat → CallOutcome Nat :=
  fun j => CallOutcome.transient j

/-- C2 witness: with a budget of 3 attempts, two transient failures then a
success yield the success value after 3 invocations, and three transient
failures re-raise the last error after 3 invocations. -/
theorem retry_invoker_spec_witness :
    retryInvoker 3 flakyCall = (Except.ok 42, 3) ∧
    retryInvoker 3 deadCall =
      (Except.error (RetryError.transient 2), 3) := by
  constructor
  · exact (retry_invoker_spec 3 flakyCall).1 2 42 (by omega)
      (fun j hj => ⟨j, by simp [flakyCall, hj]⟩) (by simp [flakyCall])
  · exact (retry_invoker_spec 3 deadCall).2 (fun j => j) (by omega)
      (fun j _ => rfl)

/-! ## C4: pull semantics -/

/-- A successfully decoded reply keeps the wire correlation id and carries
content or an error (never neither). -/
theorem taskResToMessage_ok (t : TaskRes) (m : Message)
    (h : taskResToMessage t = Except.ok m) :
    m.metadata.reply_to_message = t.ancestry ∧
    (m.content.isSome = true ∨ m.error.isSome = true) := by
  unfold taskResToMessage at h
  split at h
  · exact absurd h (by simp)
  · rename_i hcond
    cases h
    simp only [Bool.and_eq_true, Option.isNone_iff_eq_none] at hcond
    constructor
    · rfl
    · rcases Option.eq_none_or_eq_some t.content with hc | ⟨c, hc⟩
      · rcases Option.eq_none_or_eq_some t.error with he | ⟨e, he⟩
        · exact absurd (by simp [hc, he]) hcond
        · exact Or.inr (by simp [he])
      · exact Or.inl (by simp [hc])

/-- Every message in a successful batch decode comes from some wire reply. -/
theorem decodeTaskRes_ok_mem (ts : List TaskRes) :
    ∀ msgs, decodeTaskRes ts = Except.ok msgs →
      ∀ m ∈ msgs, ∃ t ∈ ts, taskResToMessage t = Except.ok m := by
  induction ts with
  | nil =>
    intro msgs h m hm
    cases h
    simp at hm
  | cons t ts ih =>
    intro msgs h m hm
    unfold decodeTaskRes at h
    cases ht : taskResToMessage t with
    | error e => rw [ht] at h; cases h
    | ok m0 =>
      rw [ht] at h
      cases hts : decodeTaskRes ts with
      | error e => rw [hts] at h; cases h
      | ok ms =>
        rw [hts] at h
        cases h
        rcases List.mem_cons.mp hm with rfl | hm2
        · exact ⟨t, List.mem_cons_self t ts, ht⟩
        · obtain ⟨t2, ht2, hok⟩ := ih ms hts m hm2
          exact ⟨t2, List.mem_cons_of_mem t ht2, hok⟩

/-- Every wire reply of a successful batch decode yields some message. -/
theorem decodeTaskRes_ok_complete (ts : List TaskRes) :
    ∀ msgs, decodeTaskRes ts = Except.ok msgs →
      ∀ t ∈ ts, ∃ m ∈ msgs, taskResToMessage t = Except.ok m := by
  induction ts with
  | nil =>
    intro msgs _ t ht
    simp at ht
  | cons t0 ts ih =>
    intro msgs h t ht
    unfold decodeTaskRes at h
    cases ht0 : taskResToMessage t0 with
    | error e => rw [ht0] at h; cases h
    | ok m0 =>
      rw [ht0] at h
      cases hts : decodeTaskRes ts with
      | error e => rw [hts] at h; cases h
      | ok ms =>
        rw [hts] at h
        cases h
        rcases List.mem_cons.mp ht with rfl | ht2
        · exact ⟨m0, List.mem_cons_self m0 ms, ht0⟩
        · obtain ⟨m, hm, hok⟩ := ih ms hts t ht2
          exact ⟨m, List.mem_cons_of_mem m0 hm, hok⟩

/-- A batch decode of well-formed wire replies succeeds and is one-to-one. -/
theorem decodeTaskRes_ok_of_wellformed (ts : List TaskRes)
    (h : ∀ t ∈ ts, t.content.isSome = true ∨ t.error.isSome = true) :
    ∃ msgs, decodeTaskRes ts = Except.ok msgs ∧ msgs.length = ts.length := by
  induction ts with
  | nil => exact ⟨[], rfl, rfl⟩
  | cons t ts ih =>
    have ht := h t (List.mem_cons_self t ts)
    obtain ⟨ms, hms, hlen⟩ := ih (fun t2 ht2 => h t2 (List.mem_cons_of_mem t ht2))
    have hok : ∃ m, taskResToMessage t = Except.ok m := by
      unfold taskResToMessage
      split
      · rename_i hcond
        simp only [Bool.and_eq_true, Option.isNone_iff_eq_none] at hcond
        rcases ht with hc | he
        · rw [hcond.1] at hc; cases hc
        · rw [hcond.2] at he; cases he
      · exact ⟨_, rfl⟩
    obtain ⟨m, hm⟩ := hok
    refine ⟨m :: ms, ?_, by simp [hlen]⟩
    unfold decodeTaskRes
    rw [hm, hms]

/-- A batch containing a reply with neither content nor error fails the
decode with a ProtocolError. -/
theorem decodeTaskRes_malformed (ts : List TaskRes)
    (h : ∃ t ∈ ts, t.content = none ∧ t.error = none) :
    decodeTaskRes ts = Except.error DriverError.protocolError := by
  induction ts with
  | nil =>
    obtain ⟨t, ht, _⟩ := h
    simp at ht
  | cons t0 ts ih =>
    obtain ⟨t, ht, hc, he⟩ := h
    rcases List.mem_cons.mp ht with rfl | ht2
    · unfold decodeTaskRes
      have : taskResToMessage t = Except.error DriverError.protocolError := by
        unfold taskResToMessage
        rw [if_pos (by simp [hc, he])]
      rw [this]
    · unfold decodeTaskRes
      cases ht0 : taskResToMessage t0 with
      | error e =>
        unfold taskResToMessage at ht0
        split at ht0
        · cases ht0; rfl
        · cases ht0
      | ok m0 =>
        rw [ih ⟨t, ht2, hc, he⟩]

/-- C4: `pull_messages` issues exactly one remote call; every returned
reply correlates to a requested id and carries content or an error (never
neither); every reply available in the remote store for a requested id is
returned (and absence just omits it); a stored reply lacking both content
and error makes the call fail with a ProtocolError. -/
theorem pull_messages_spec (d : Driver) (now : Nat) (ids : List String)
    (hstore : ∀ i t, d.stub.store now i = some t → t.ancestry = i) :
    (pull_messages d now ids).2 = [RemoteCall.pullTaskRes] ∧
    (∀ msgs, (pull_messages d now ids).1 = Except.ok msgs →
      (∀ m ∈ msgs, m.metadata.reply_to_message ∈ ids ∧
        (m.content.isSome = true ∨ m.error.isSome = true)) ∧
      (∀ i ∈ ids, ∀ t, d.stub.store now i = some t →
        ∃ m ∈ msgs, m.metadata.reply_to_message = i)) ∧
    ((∃ i ∈ ids, ∃ t, d.stub.store now i = some t ∧
        t.content = none ∧ t.error = none) →
      (pull_messages d now ids).1 = Except.error DriverError.protocolError) := by
  refine ⟨rfl, ?_, ?_⟩
  · intro msgs h
    have hdec : decodeTaskRes (ids.filterMap (d.stub.store now)) = Except.ok msgs := h
    constructor
    · intro m hm
      obtain ⟨t, htmem, hok⟩ := decodeTaskRes_ok_mem _ msgs hdec m hm
      obtain ⟨i, hi, hit⟩ := List.mem_filterMap.mp htmem
      obtain ⟨hreply, hpayload⟩ := taskResToMessage_ok t m hok
      refine ⟨?_, hpayload⟩
      rw [hreply, hstore i t hit]
      exact hi
    · intro i hi t hit
      have htmem : t ∈ ids.filterMap (d.stub.store now) :=
        List.mem_filterMap.mpr ⟨i, hi, hit⟩
      obtain ⟨m, hm, hok⟩ := decodeTaskRes_ok_complete _ msgs hdec t htmem
      refine ⟨m, hm, ?_⟩
      rw [(taskResToMessage_ok t m hok).1, hstore i t hit]
  · intro hmal
    obtain ⟨i, hi, t, hit, hc, he⟩ := hmal
    have htmem : t ∈ ids.filterMap (d.stub.store now) :=
      List.mem_filterMap.mpr ⟨i, hi, hit⟩
    exact decodeTaskRes_malformed _ ⟨t, htmem, hc, he⟩

/-- The concrete reply store returns ancestry-consistent replies. -/
theorem testStub_store_consistent :
    ∀ now i t, testStub.store now i = some t → t.ancestry = i := by
  intro now i t h
  simp only [testStub] at h
  split at h
  · rename_i hi
    cases h
    exact hi.symm
  · split at h
    · rename_i hi
      cases h
      exact hi.symm
    · cases h

/-- C4 witness: pulling ["id1", "id2", "id3"] from the concrete store (a
content reply under "id2", an error reply under "id3") obeys all three
parts of the pull contract. -/
theorem pull_messages_spec_witness :
    (pull_messages testDriver 0 ["id1", "id2", "id3"]).2 =
      [RemoteCall.pullTaskRes] ∧
    (∀ msgs,
      (pull_messages testDriver 0 ["id1", "id2", "id3"]).1 = Except.ok msgs →
      (∀ m ∈ msgs, m.metadata.reply_to_message ∈ ["id1", "id2", "id3"] ∧
        (m.content.isSome = true ∨ m.error.isSome = true)) ∧
      (∀ i ∈ ["id1", "id2", "id3"], ∀ t, testDriver.stub.store 0 i = some t →
        ∃ m ∈ msgs, m.metadata.reply_to_message = i)) ∧
    ((∃ i ∈ ["id1", "id2", "id3"], ∃ t, testDriver.stub.store 0 i = some t ∧
        t.content = none ∧ t.error = none) →
      (pull_messages testDriver 0 ["id1", "id2", "id3"]).1 =
        Except.error DriverError.protocolError) :=
  pull_messages_spec testDriver 0 ["id1", "id2", "id3"]
    (fun i t h => testStub_store_consistent 0 i t h)

/-! ## C3 and C6: the send-and-receive loop -/

/-- One-step unfolding of the poll loop. -/
theorem pollLoop_step (d : Driver) (interval timeout n now : Nat)
    (outstanding : List String) (acc : List Message) :
    pollLoop d interval timeout (n + 1) now outstanding acc =
      match (pull_messages d now outstanding).1 with
      | Except.error e => (Except.error e, [RemoteCall.pullTaskRes])
      | Except.ok replies =>
        let acc2 := acc ++ replies
        let out2 := removeReceived outstanding replies
        if out2.isEmpty then
          (Except.ok (acc2, now), [RemoteCall.pullTaskRes])
        else if timeout < now then
          (Except.ok (acc2, now), [RemoteCall.pullTaskRes])
        else
          let r := pollLoop d interval timeout n (now + interval) out2 acc2
          (r.1, RemoteCall.pullTaskRes :: r.2) := rfl

/-- No replies leave the outstanding set unchanged. -/
theorem removeReceived_nil (outstanding : List String) :
    removeReceived outstanding [] = outstanding := by
  simp [removeReceived]

/-- Poll loop over ids for which the store never produces a reply: every
poll comes back empty, the accumulator is untouched, and the loop returns
once the elapsed time exceeds the timeout — at most one sleep interval
past it. -/
theorem pollLoop_no_replies (d : Driver) (interval timeout : Nat) :
    ∀ fuel now outstanding acc,
      (∀ t i, i ∈ outstanding → d.stub.store t i = none) →
      timeout < now + fuel * interval →
      now ≤ timeout + interval →
      ∃ elapsed tr,
        pollLoop d interval timeout fuel now outstanding acc =
          (Except.ok (acc, elapsed), tr) ∧ elapsed ≤ timeout + interval := by
  intro fuel
  induction fuel with
  | zero =>
    intro now outstanding acc _ _ hnow
    exact ⟨now, [], rfl, hnow⟩
  | succ n ih =>
    intro now outstanding acc hnone hfuel hnow
    have hmap : outstanding.filterMap (d.stub.store now) = [] := by
      rw [List.filterMap_eq_nil_iff]
      intro i hi
      exact hnone now i hi
    have hpull : (pull_messages d now outstanding).1 = Except.ok [] := by
      simp [pull_messages, hmap, decodeTaskRes]
    rw [pollLoop_step, hpull]
    simp only [List.append_nil, removeReceived_nil]
    by_cases hemp : outstanding.isEmpty
    · exact ⟨now, [RemoteCall.pullTaskRes], by simp [hemp], hnow⟩
    · by_cases htn : timeout < now
      · exact ⟨now, [RemoteCall.pullTaskRes], by simp [hemp, htn], hnow⟩
      · have hfuel2 : timeout < (now + interval) + n * interval := by
          have hsm : (n + 1) * interval = n * interval + interval := by ring
          omega
        have hnow2 : now + interval ≤ timeout + interval := by omega
        obtain ⟨elapsed, tr, heq, hb⟩ :=
          ih (now + interval) outstanding acc hnone hfuel2 hnow2
        refine ⟨elapsed, RemoteCall.pullTaskRes :: tr, ?_, hb⟩
        simp [hemp, htn, heq]

/-- C3: with a finite timeout and some expected replies never becoming
available, `send_and_receive` returns normally with the partial batch of
replies that did arrive — the replies the store holds for the pushed ids —
and the elapsed time honors the timeout with at most one sleep interval of
overshoot; with no replies ever available the returned batch is empty. -/
theorem send_and_receive_partial_on_timeout (d : Driver) (msgs : List Message)
    (timeout : Nat)
    (hvalid : ∀ m ∈ msgs, m.metadata.run_id = d.run.run_id)
    (hstatic : ∀ t i, d.stub.store t i = d.stub.store 0 i)
    (hanc : ∀ i t, d.stub.store 0 i = some t → t.ancestry = i)
    (hwf : ∀ i t, d.stub.store 0 i = some t →
      (t.content.isSome = true ∨ t.error.isSome = true))
    (hmissing : ∃ i ∈ d.stub.pushTaskInsResp (msgs.map messageToTaskIns),
      d.stub.store 0 i = none) :
    ∃ replies elapsed tr,
      decodeTaskRes ((d.stub.pushTaskInsResp (msgs.map messageToTaskIns)).filterMap
        (d.stub.store 0)) = Except.ok replies ∧
      sendAndReceive d msgs timeout = (Except.ok (replies, elapsed), tr) ∧
      elapsed ≤ timeout + pollInterval := by
  have hall : msgs.all (fun m => m.metadata.run_id == d.run.run_id) = true := by
    simp only [List.all_eq_true, beq_iff_eq]
    exact hvalid
  have hpush1 : (push_messages d msgs).1 =
      Except.ok (d.stub.pushTaskInsResp (msgs.map messageToTaskIns)) := by
    simp [push_messages, hall]
  set ids := d.stub.pushTaskInsResp (msgs.map messageToTaskIns) with hids
  have hwfall : ∀ t ∈ ids.filterMap (d.stub.store 0),
      t.content.isSome = true ∨ t.error.isSome = true := by
    intro t ht
    obtain ⟨i, _, hit⟩ := List.mem_filterMap.mp ht
    exact hwf i t hit
  obtain ⟨replies, hdec, _⟩ := decodeTaskRes_ok_of_wellformed _ hwfall
  have hpull : (pull_messages d 0 ids).1 = Except.ok replies := hdec
  have hrep_avail : ∀ m ∈ replies,
      (d.stub.store 0 m.metadata.reply_to_message).isSome = true := by
    intro m hm
    obtain ⟨t, htmem, hok⟩ := decodeTaskRes_ok_mem _ replies hdec m hm
    obtain ⟨i, _, hit⟩ := List.mem_filterMap.mp htmem
    rw [(taskResToMessage_ok t m hok).1, hanc i t hit, hit]
    rfl
  have hout_none : ∀ i ∈ removeReceived ids replies, d.stub.store 0 i = none := by
    intro i hi
    rw [removeReceived, List.mem_filter] at hi
    obtain ⟨hin, hnp⟩ := hi
    by_cases hsome : d.stub.store 0 i = none
    · exact hsome
    · exfalso
      obtain ⟨t, hit⟩ := Option.ne_none_iff_exists'.mp hsome
      obtain ⟨m, hm, hok⟩ := decodeTaskRes_ok_complete _ replies hdec t
        (List.mem_filterMap.mpr ⟨i, hin, hit⟩)
      have hmi : m.metadata.reply_to_message = i := by
        rw [(taskResToMessage_ok t m hok).1, hanc i t hit]
      have hany : replies.any (fun m => m.metadata.reply_to_message == i) = true :=
        List.any_eq_true.mpr ⟨m, hm, by simp [hmi]⟩
      rw [hany] at hnp
      exact Bool.noConfusion hnp
  have hne : (removeReceived ids replies).isEmpty = false := by
    obtain ⟨i0, hi0, hnone0⟩ := hmissing
    have hnoreply : replies.any
        (fun m => m.metadata.reply_to_message == i0) = false := by
      by_cases h : replies.any (fun m => m.metadata.reply_to_message == i0) = true
      · obtain ⟨m, hm, hmi⟩ := List.any_eq_true.mp h
        have := hrep_avail m hm
        rw [eq_of_beq hmi] at this
        rw [hnone0] at this
        exact Bool.noConfusion this
      · exact Bool.eq_false_iff.mpr h
    have hmem : i0 ∈ removeReceived ids replies := by
      rw [removeReceived, List.mem_filter]
      exact ⟨hi0, by rw [hnoreply]; rfl⟩
    cases hform : removeReceived ids replies with
    | nil =>
      rw [hform] at hmem
      exact absurd hmem (List.not_mem_nil i0)
    | cons a l => rfl
  have hnone2 : ∀ t i, i ∈ removeReceived ids replies → d.stub.store t i = none :=
    fun t i hi => (hstatic t i).trans (hout_none i hi)
  have hfuel2 : timeout < pollInterval +
      (timeout / pollInterval + 1) * pollInterval := by
    simp only [pollInterval]
    omega
  have hnow2 : pollInterval ≤ timeout + pollInterval := by omega
  obtain ⟨elapsed, tr2, hloop, hb⟩ := pollLoop_no_replies d pollInterval timeout
    (timeout / pollInterval + 1) pollInterval (removeReceived ids replies) replies
    hnone2 hfuel2 hnow2
  have hnonnil : removeReceived ids replies ≠ [] := by
    intro h
    rw [h] at hne
    exact Bool.noConfusion hne
  have hpush2 : (push_messages d msgs).2 = [RemoteCall.pushTaskIns] := by
    simp [push_messages, hall]
  refine ⟨replies, elapsed,
    RemoteCall.pushTaskIns :: RemoteCall.pullTaskRes :: tr2, hdec, ?_, hb⟩
  unfold sendAndReceive
  have hF : timeout / pollInterval + 2 = (timeout / pollInterval + 1) + 1 := rfl
  simp only [hpush1]
  rw [hF, pollLoop_step, hpull]
  simp [hne, hnonnil, hloop, hpush2]

/-- C3 witness: pushing one message to the reply-less remote with timeout
150 returns normally; the partial result is the decode of the (empty)
available-reply set, and the elapsed time overshoots the timeout by at
most one sleep interval.  Concretely the call returns the empty sequence
at elapsed time 200. -/
theorem send_and_receive_partial_on_timeout_witness :
    (∃ replies elapsed tr,
      decodeTaskRes ((emptyDriver.stub.pushTaskInsResp
        ([testMsg].map messageToTaskIns)).filterMap (emptyDriver.stub.store 0)) =
        Except.ok replies ∧
      sendAndReceive emptyDriver [testMsg] 150 =
        (Except.ok (replies, elapsed), tr) ∧
      elapsed ≤ 150 + pollInterval) ∧
    (sendAndReceive emptyDriver [testMsg] 150).1 = Except.ok ([], 200) :=
  ⟨send_and_receive_partial_on_timeout emptyDriver [testMsg] 150
    (by decide)
    (fun _ _ => rfl)
    (fun i t h => Option.noConfusion h)
    (fun i t h => Option.noConfusion h)
    ⟨"id1", by
      have hred : emptyDriver.stub.pushTaskInsResp
          ([testMsg].map messageToTaskIns) = ["id1"] := rfl
      rw [hred]
      exact List.mem_singleton.mpr rfl, rfl⟩,
   rfl⟩

/-- Every filter-map by an everywhere-defined function keeps the length. -/
theorem length_filterMap_of_all_some {α β : Type} (f : α → Option β) :
    ∀ l : List α, (∀ a ∈ l, (f a).isSome = true) →
      (l.filterMap f).length = l.length := by
  intro l
  induction l with
  | nil => intro _; rfl
  | cons a l ih =>
    intro h
    have ha := h a (List.mem_cons_self a l)
    obtain ⟨b, hb⟩ := Option.isSome_iff_exists.mp ha
    rw [List.filterMap_cons, hb]
    simp [ih (fun x hx => h x (List.mem_cons_of_mem a hx))]

/-- C6: when every expected reply is already available (well-formed) at the
first poll, `send_and_receive` returns all replies — one per pushed
message, correlated by id — at elapsed time 0, i.e. immediately, before
any timeout can elapse. -/
theorem send_and_receive_complete (d : Driver) (msgs : List Message)
    (timeout : Nat)
    (hvalid : ∀ m ∈ msgs, m.metadata.run_id = d.run.run_id)
    (hanc : ∀ i t, d.stub.store 0 i = some t → t.ancestry = i)
    (havail : ∀ i ∈ d.stub.pushTaskInsResp (msgs.map messageToTaskIns),
      ∃ t, d.stub.store 0 i = some t ∧
        (t.content.isSome = true ∨ t.error.isSome = true)) :
    ∃ replies tr,
      decodeTaskRes ((d.stub.pushTaskInsResp (msgs.map messageToTaskIns)).filterMap
        (d.stub.store 0)) = Except.ok replies ∧
      sendAndReceive d msgs timeout = (Except.ok (replies, 0), tr) ∧
      replies.length = (d.stub.pushTaskInsResp (msgs.map messageToTaskIns)).length ∧
      ∀ i ∈ d.stub.pushTaskInsResp (msgs.map messageToTaskIns),
        ∃ m ∈ replies, m.metadata.reply_to_message = i := by
  have hall : msgs.all (fun m => m.metadata.run_id == d.run.run_id) = true := by
    simp only [List.all_eq_true, beq_iff_eq]
    exact hvalid
  have hpush1 : (push_messages d msgs).1 =
      Except.ok (d.stub.pushTaskInsResp (msgs.map messageToTaskIns)) := by
    simp [push_messages, hall]
  have hpush2 : (push_messages d msgs).2 = [RemoteCall.pushTaskIns] := by
    simp [push_messages, hall]
  set ids := d.stub.pushTaskInsResp (msgs.map messageToTaskIns) with hids
  have hwfall : ∀ t ∈ ids.filterMap (d.stub.store 0),
      t.content.isSome = true ∨ t.error.isSome = true := by
    intro t ht
    obtain ⟨i, hi, hit⟩ := List.mem_filterMap.mp ht
    obtain ⟨t2, ht2, hwf2⟩ := havail i hi
    rw [hit] at ht2
    injection ht2 with h
    rw [h]
    exact hwf2
  obtain ⟨replies, hdec, hlen⟩ := decodeTaskRes_ok_of_wellformed _ hwfall
  have hpull : (pull_messages d 0 ids).1 = Except.ok replies := hdec
  have hcorr : ∀ i ∈ ids, ∃ m ∈ replies, m.metadata.reply_to_message = i := by
    intro i hi
    obtain ⟨t, hit, _⟩ := havail i hi
    obtain ⟨m, hm, hok⟩ := decodeTaskRes_ok_complete _ replies hdec t
      (List.mem_filterMap.mpr ⟨i, hi, hit⟩)
    exact ⟨m, hm, by rw [(taskResToMessage_ok t m hok).1, hanc i t hit]⟩
  have hout_empty : removeReceived ids replies = [] := by
    rw [removeReceived, List.filter_eq_nil_iff]
    intro i hi
    obtain ⟨m, hm, hmi⟩ := hcorr i hi
    have hany : replies.any (fun m => m.metadata.reply_to_message == i) = true :=
      List.any_eq_true.mpr ⟨m, hm, by simp [hmi]⟩
    simp [hany]
  have hflen : (ids.filterMap (d.stub.store 0)).length = ids.length := by
    apply length_filterMap_of_all_some
    intro i hi
    obtain ⟨t, hit, _⟩ := havail i hi
    rw [hit]
    rfl
  refine ⟨replies, [RemoteCall.pushTaskIns, RemoteCall.pullTaskRes], hdec, ?_,
    hlen.trans hflen, hcorr⟩
  unfold sendAndReceive
  have hF : timeout / pollInterval + 2 = (timeout / pollInterval + 1) + 1 := rfl
  simp only [hpush1]
  rw [hF, pollLoop_step, hpull]
  simp [hout_empty, hpush2]

/-- A stub remote holding an error reply for "id1", ready immediately. -/
def completeStub : Stub where
  getRunResp := fun _ => some testRun
  getNodesResp := fun _ => []
  pushTaskInsResp := fun req => (List.range req.length).map idFor
  store := fun _ i =>
    if i = "id1" then
      some { run_id := 61016, ancestry := "id1", content := none,
             error := some { code := 0 } }
    else none

/-- Driver over the immediately-complete stub. -/
def completeDriver : Driver :=
  { run := testRun, stub := completeStub, channelConnected := false }

/-- C6 witness: one pushed message whose error reply is available at once
comes back as the single reply correlated to "id1", at elapsed time 0. -/
theorem send_and_receive_complete_witness :
    ∃ replies tr,
      decodeTaskRes ((completeDriver.stub.pushTaskInsResp
        ([testMsg].map messageToTaskIns)).filterMap (completeDriver.stub.store 0)) =
        Except.ok replies ∧
      sendAndReceive completeDriver [testMsg] 150 =
        (Except.ok (replies, 0), tr) ∧
      replies.length = (completeDriver.stub.pushTaskInsResp
        ([testMsg].map messageToTaskIns)).length ∧
      ∀ i ∈ completeDriver.stub.pushTaskInsResp ([testMsg].map messageToTaskIns),
        ∃ m ∈ replies, m.metadata.reply_to_message = i :=
  send_and_receive_complete completeDriver [testMsg] 150
    (by decide)
    (by
      intro i t h
      simp only [completeDriver, completeStub] at h
      split at h
      · rename_i hi
        cases h
        exact hi.symm
      · cases h)
    (by
      intro i hi
      have hred : completeDriver.stub.pushTaskInsResp
          ([testMsg].map messageToTaskIns) = ["id1"] := rfl
      rw [hred] at hi
      rcases List.mem_singleton.mp hi with rfl
      exact ⟨{ run_id := 61016, ancestry := "id1", content := none,
               error := some { code := 0 } }, rfl, Or.inr rfl⟩)

end Flower
